import Mathlib

/-
Verification of the pyglmnet elastic-net GLM engine.

The definitions below are shallow embeddings of the functions in
pyglmnet/pyglmnet.py and pyglmnet/distributions.py.  Exact rational
arithmetic (Rat) is used wherever the Python code computes with closed
rational expressions; real numbers are used where the source needs
square roots (group L2 norms), exponentials or logarithms.
-/

namespace Pyglmnet

/-- Dot product of two rational vectors, the 1-d case of np.dot. -/
def dotL (a b : List ℚ) : ℚ :=
  (List.zipWith (fun x y => x * y) a b).sum

/-- Models np.sign on a rational scalar: -1 for negatives, 1 for positives,
0 at zero. -/
def signQ (x : ℚ) : ℚ :=
  if x < 0 then -1 else if 0 < x then 1 else 0

/-- One component of the group-is-None branch of GLM._prox:
np.sign(beta) * (np.abs(beta) - thresh) * (np.abs(beta) > thresh).
The boolean mask contributes 1 when the comparison holds and 0 otherwise. -/
def softThreshold (thresh b : ℚ) : ℚ :=
  signQ b * (|b| - thresh) * (if thresh < |b| then 1 else 0)

/-- The group-is-None branch of GLM._prox (pyglmnet.py lines 368-371),
applied elementwise over the coefficient vector, over exact rationals. -/
def prox_ungrouped (beta : List ℚ) (thresh : ℚ) : List ℚ :=
  beta.map (softThreshold thresh)

/-- The L2 norm np.linalg.norm(beta[group == group_id], 2) of the members of
one group, as computed inside the group branch of GLM._prox. -/
noncomputable def groupNorm (group : List ℤ) (beta : List ℝ) (gid : ℤ) : ℝ :=
  Real.sqrt ((((group.zip beta).filter (fun p => p.1 == gid)).map (fun p => p.2 ^ 2)).sum)

/-- The group_norms array of the group branch of GLM._prox: it starts as
np.abs(beta) and the loop over the nonzero group ids overwrites the entries
of each group with that group L2 norm, so an entry with group id 0 keeps
np.abs(beta) and every other entry holds its group norm. -/
noncomputable def groupNorms (group : List ℤ) (beta : List ℝ) : List ℝ :=
  (group.zip beta).map (fun p => if p.1 = 0 then |p.2| else groupNorm group beta p.1)

/-- The group branch of GLM._prox (pyglmnet.py lines 372-391):
idxs_to_update = (group_norms > 0) & (group_norms > thresh); the entries at
idxs_to_update become beta - thresh * beta / group_norms and every other
entry keeps its value from result = beta. -/
noncomputable def prox_grouped (group : List ℤ) (beta : List ℝ) (thresh : ℝ) : List ℝ :=
  (beta.zip (groupNorms group beta)).map
    (fun p => if 0 < p.2 ∧ thresh < p.2 then p.1 - thresh * p.1 / p.2 else p.1)

lemma softThreshold_zero (t : ℚ) : softThreshold t 0 = 0 := by
  simp [softThreshold, signQ]

lemma softThreshold_pos_over {b t : ℚ} (hb : 0 < b) (hbt : t < b) :
    softThreshold t b = b - t := by
  rw [softThreshold, signQ, abs_of_pos hb, if_neg (not_lt.mpr hb.le), if_pos hb, if_pos hbt]
  ring

lemma softThreshold_pos_under {b t : ℚ} (hb : 0 < b) (hbt : ¬ t < b) :
    softThreshold t b = 0 := by
  rw [softThreshold, abs_of_pos hb, if_neg hbt]
  ring

lemma softThreshold_neg_over {b t : ℚ} (hb : b < 0) (hbt : t < -b) :
    softThreshold t b = b + t := by
  rw [softThreshold, signQ, abs_of_neg hb, if_pos hb, if_pos hbt]
  ring

lemma softThreshold_neg_under {b t : ℚ} (hb : b < 0) (hbt : ¬ t < -b) :
    softThreshold t b = 0 := by
  rw [softThreshold, abs_of_neg hb, if_neg hbt]
  ring

lemma softThreshold_twice (b t : ℚ) (ht : 0 ≤ t) :
    softThreshold t (softThreshold t b) = softThreshold (2 * t) b := by
  rcases lt_trichotomy b 0 with hb | hb | hb
  · by_cases hbt : t < -b
    · rw [softThreshold_neg_over hb hbt]
      by_cases h3 : t < -(b + t)
      · rw [softThreshold_neg_over (by linarith) h3,
          softThreshold_neg_over hb (by linarith), ]
        ring
      · rcases lt_or_eq_of_le (by linarith : b + t ≤ 0) with h4 | h4
        · rw [softThreshold_neg_under h4 h3,
            softThreshold_neg_under hb (by intro h; exact h3 (by linarith))]
        · rw [h4, softThreshold_zero,
            softThreshold_neg_under hb (by intro h; exact h3 (by linarith))]
    · rw [softThreshold_neg_under hb hbt, softThreshold_zero,
        softThreshold_neg_under hb (by intro h; exact hbt (by linarith))]
  · subst hb
    rw [softThreshold_zero, softThreshold_zero, softThreshold_zero]
  · by_cases hbt : t < b
    · rw [softThreshold_pos_over hb hbt]
      by_cases h3 : t < b - t
      · rw [softThreshold_pos_over (by linarith) h3,
          softThreshold_pos_over hb (by linarith)]
        ring
      · rcases lt_or_eq_of_le (by linarith : 0 ≤ b - t) with h4 | h4
        · rw [softThreshold_pos_under h4 h3,
            softThreshold_pos_under hb (by intro h; exact h3 (by linarith))]
        · rw [← h4, softThreshold_zero,
            softThreshold_pos_under hb (by intro h; exact h3 (by linarith))]
    · rw [softThreshold_pos_under hb hbt, softThreshold_zero,
        softThreshold_pos_under hb (by intro h; exact hbt (by linarith))]

/-- C1: at the concrete input beta = [1/2], group = [1], thresh = 1, the group
branch of GLM._prox leaves the coefficient unchanged at 1/2: the group L2 norm
is 1/2, which is at most the threshold, so the index is not in idxs_to_update
and keeps its value from result = beta.  The claim demands that the whole
group be zeroed, i.e. output [0]; the code returns [1/2]. -/
theorem prox_grouped_below_threshold_unchanged :
    prox_grouped [1] [(1 : ℝ) / 2] 1 = [(1 : ℝ) / 2] ∧
      prox_grouped [1] [(1 : ℝ) / 2] 1 ≠ [(0 : ℝ)] := by
  have hnorm : groupNorm [1] [(1 : ℝ) / 2] 1 = 1 / 2 := by
    rw [groupNorm]
    have harg : ((([((1 : ℤ), (1 : ℝ) / 2)]).filter (fun p => p.1 == 1)).map
        (fun p => p.2 ^ 2)).sum = ((1 : ℝ) / 2) ^ 2 := by
      norm_num
    rw [show ([(1 : ℤ)].zip [(1 : ℝ) / 2]) = [((1 : ℤ), (1 : ℝ) / 2)] from rfl, harg,
      Real.sqrt_sq (by norm_num)]
  have hns : groupNorms [1] [(1 : ℝ) / 2] = [(1 : ℝ) / 2] := by
    rw [groupNorms, show ([(1 : ℤ)].zip [(1 : ℝ) / 2]) = [((1 : ℤ), (1 : ℝ) / 2)] from rfl,
      List.map_singleton, if_neg (by norm_num : ¬ (1 : ℤ) = 0), hnorm]
  have hval : prox_grouped [1] [(1 : ℝ) / 2] 1 = [(1 : ℝ) / 2] := by
    rw [prox_grouped, hns]
    norm_num
  refine ⟨hval, ?_⟩
  rw [hval]
  intro h
  have h2 : (1 : ℝ) / 2 = 0 := by injection h
  norm_num at h2

/-- C2 counterexample: the proximal operator is not idempotent.  With
beta = [3], t = 1 and no grouping, one application gives [2] and a second
application gives [1], so prox(prox(beta, t), t) differs from prox(beta, t). -/
theorem prox_not_idempotent :
    prox_ungrouped (prox_ungrouped [(3 : ℚ)] 1) 1 ≠ prox_ungrouped [(3 : ℚ)] 1 := by
  have e1 : prox_ungrouped [(3 : ℚ)] 1 = [2] := by
    rw [prox_ungrouped, List.map_singleton, softThreshold_pos_over (by norm_num) (by norm_num)]
    norm_num
  have e2 : prox_ungrouped [(2 : ℚ)] 1 = [1] := by
    rw [prox_ungrouped, List.map_singleton, softThreshold_pos_over (by norm_num) (by norm_num)]
    norm_num
  rw [e1, e2]
  intro h
  have h2 : (1 : ℚ) = 2 := by injection h
  norm_num at h2

/-- C2 amended: for group = None and any threshold t at least 0, applying the
proximal operator twice with threshold t equals a single application with
threshold 2 * t; soft thresholding shrinks twice rather than projecting. -/
theorem prox_twice_eq_double_threshold (beta : List ℚ) (t : ℚ) (ht : 0 ≤ t) :
    prox_ungrouped (prox_ungrouped beta t) t = prox_ungrouped beta (2 * t) := by
  rw [prox_ungrouped, prox_ungrouped, prox_ungrouped, List.map_map]
  refine List.map_congr_left ?_
  intro b _
  exact softThreshold_twice b t ht

/-- Witness for the amended C2 theorem at beta = [3], t = 1. -/
theorem prox_twice_eq_double_threshold_witness :
    prox_ungrouped (prox_ungrouped [(3 : ℚ)] 1) 1 = prox_ungrouped [(3 : ℚ)] (2 * 1) :=
  prox_twice_eq_double_threshold [(3 : ℚ)] 1 (by norm_num)

/-- The numerically stable softplus of distributions.py (lines 11-18), one
scalar component: the three masks z > 35, z < -10 and -10 <= z <= 35
partition the real line, so the elementwise computation is the nested
conditional below; log1p(x) is log(1 + x). -/
noncomputable def softplus (z : ℝ) : ℝ :=
  if 35 < z then z
  else if z < -10 then Real.exp z
  else Real.log (1 + Real.exp z)

/-- The logistic sigmoid scipy.special.expit, one scalar component. -/
noncomputable def expit (z : ℝ) : ℝ :=
  1 / (1 + Real.exp (-z))

/-- The nonlinearity _qu of pyglmnet.py (lines 17-31).  The if/elif chain
covers the distribution names softplus, poisson, gaussian and binomial; for
any other name the Python function falls through and returns an unbound
local variable (an error), modelled as none. -/
noncomputable def qu (distr : String) (z : List ℝ) (eta : ℝ) : Option (List ℝ) :=
  if distr = "softplus" then
    some (z.map (fun v => Real.log (1 + Real.exp v)))
  else if distr = "poisson" then
    some (z.map (fun v =>
      if eta < v then v * Real.exp eta + (1 - eta) * Real.exp eta else Real.exp v))
  else if distr = "gaussian" then
    some z
  else if distr = "binomial" then
    some (z.map expit)
  else
    none

/-- C8: the softplus inverse link of distributions.py returns z in the
saturation regime z > 35, returns exp z in the underflow regime z < -10,
and returns log1p(exp z) in between; in particular softplus 40 = 40,
softplus (-20) = exp (-20) and softplus 0 = log 2. -/
theorem softplus_piecewise :
    (∀ z : ℝ, 35 < z → softplus z = z) ∧
      (∀ z : ℝ, z < -10 → softplus z = Real.exp z) ∧
      (∀ z : ℝ, -10 ≤ z → z ≤ 35 → softplus z = Real.log (1 + Real.exp z)) ∧
      softplus 40 = 40 ∧
      softplus (-20) = Real.exp (-20) ∧
      softplus 0 = Real.log 2 := by
  have h1 : ∀ z : ℝ, 35 < z → softplus z = z := by
    intro z hz
    rw [softplus, if_pos hz]
  have h2 : ∀ z : ℝ, z < -10 → softplus z = Real.exp z := by
    intro z hz
    rw [softplus, if_neg (by linarith), if_pos hz]
  have h3 : ∀ z : ℝ, -10 ≤ z → z ≤ 35 → softplus z = Real.log (1 + Real.exp z) := by
    intro z hz1 hz2
    rw [softplus, if_neg (by linarith), if_neg (by linarith)]
  refine ⟨h1, h2, h3, h1 40 (by norm_num), h2 (-20) (by norm_num), ?_⟩
  rw [h3 0 (by norm_num) (by norm_num), Real.exp_zero]
  norm_num

/-- Witness for C8 at the concrete points z = 36 and z = -11. -/
theorem softplus_piecewise_witness :
    softplus 36 = 36 ∧ softplus (-11) = Real.exp (-11) :=
  ⟨softplus_piecewise.1 36 (by norm_num), softplus_piecewise.2.1 (-11) (by norm_num)⟩

/-- C6 counterexample: the estimator nonlinearity _qu does not handle the
distribution name probit: the if/elif chain of pyglmnet.py falls through
with no result, even though distributions.py defines a Probit class. -/
theorem qu_probit_undefined : qu "probit" [(0 : ℝ)] 2 = none := by
  rw [qu, if_neg (by decide), if_neg (by decide), if_neg (by decide), if_neg (by decide)]

/-- C6 amended: the fit and predict path of the estimator is defined exactly
for the four distribution names gaussian, poisson, softplus and binomial;
for probit, gamma and the negative binomial the nonlinearity _qu falls
through with no result. -/
theorem qu_supported_distributions :
    (∀ (z : List ℝ) (eta : ℝ),
        (qu "gaussian" z eta).isSome ∧ (qu "poisson" z eta).isSome ∧
        (qu "softplus" z eta).isSome ∧ (qu "binomial" z eta).isSome) ∧
      (∀ (z : List ℝ) (eta : ℝ),
        qu "probit" z eta = none ∧ qu "gamma" z eta = none ∧
        qu "neg-binomial" z eta = none) := by
  constructor
  · intro z eta
    refine ⟨?_, ?_, ?_, ?_⟩
    · rw [qu, if_neg (by decide), if_neg (by decide), if_pos rfl]
      rfl
    · rw [qu, if_neg (by decide), if_pos rfl]
      rfl
    · rw [qu, if_pos rfl]
      rfl
    · rw [qu, if_neg (by decide), if_neg (by decide), if_neg (by decide), if_pos rfl]
      rfl
  · intro z eta
    refine ⟨?_, ?_, ?_⟩ <;>
      rw [qu, if_neg (by decide), if_neg (by decide), if_neg (by decide), if_neg (by decide)]

/-- A Python numeric scalar as it can appear in a user supplied group list:
an integer or a float (the rational it denotes). -/
inductive PyScalar
  | int (n : ℤ)
  | float (q : ℚ)

/-- After the statement self.group.dtype = np.int64 every element of the
array is an np.int64 scalar, so the comprehension
[isinstance(g, np.int64) for g in self.group] is a list of True. -/
def isNpInt64 (_ : ℤ) : Bool :=
  true

/-- Models the dtype reassignment self.group.dtype = np.int64 on the array
np.array(self.group) (pyglmnet.py lines 535-536).  Reassigning the dtype
attribute does not convert values: it reinterprets the underlying 8-byte
buffer of each element, so an int64 entry is unchanged while a float64
entry becomes the int64 with the same IEEE-754 bit pattern.  The bit
reinterpretation map float64bits is a parameter: no theorem below depends
on its values, only on the fact that the result is an int64. -/
def reinterpretInt64 (float64bits : ℚ → ℤ) : PyScalar → ℤ
  | PyScalar.int n => n
  | PyScalar.float q => float64bits q

/-- The group validation block of GLM.fit (pyglmnet.py lines 534-542):
convert group to an array, reassign its dtype to int64 (same length, since
int64 and float64 both have itemsize 8), then raise on wrong length, then
raise when some element is not an np.int64. -/
def groupCheck (float64bits : ℚ → ℤ) (groupEntries : List PyScalar)
    (nFeatures : ℕ) : Except String (List ℤ) :=
  let g := groupEntries.map (reinterpretInt64 float64bits)
  if g.length ≠ nFeatures then
    Except.error "group should be (n_features,)"
  else if ¬ (g.all isNpInt64) then
    Except.error "all entries of group should be integers"
  else
    Except.ok g

/-- C4: the non-integer check of GLM.fit is dead code and float entries pass
through silently.  First conjunct: for every input, groupCheck never raises
the error demanded by the claim, because after the dtype reassignment every
element is an np.int64.  Second conjunct: at the failing input
group = [1.5, 2.5] with n_features = 2, fit proceeds with the two float
bit patterns silently reinterpreted as int64 values. -/
theorem groupCheck_never_raises_integer_error :
    (∀ (float64bits : ℚ → ℤ) (entries : List PyScalar) (n : ℕ),
        groupCheck float64bits entries n ≠
          Except.error "all entries of group should be integers") ∧
      (∀ float64bits : ℚ → ℤ,
        groupCheck float64bits [PyScalar.float (3 / 2), PyScalar.float (5 / 2)] 2 =
          Except.ok [float64bits (3 / 2), float64bits (5 / 2)]) := by
  constructor
  · intro float64bits entries n h
    rw [groupCheck] at h
    split at h
    · have h2 : "group should be (n_features,)" = "all entries of group should be integers" := by
        injection h
      exact absurd h2 (by decide)
    · rw [if_neg (by simp [isNpInt64])] at h
      exact Except.noConfusion h
  · intro float64bits
    rw [groupCheck]
    rw [if_neg (by simp [reinterpretInt64]), if_neg (by simp [isNpInt64])]
    rfl

/-- The global numpy pseudo random stream np.random: an infinite stream of
standard normal draws together with the current position.  Successive calls
to np.random.normal consume draws and advance the position. -/
structure GlobalRng where
  stream : ℕ → ℚ
  pos : ℕ

/-- Models np.random.normal(0.0, 1.0, count) on the global stream: returns
count draws and the advanced stream. -/
def normalDraws (rng : GlobalRng) (count : ℕ) : List ℚ × GlobalRng :=
  ((List.range count).map (fun i => rng.stream (rng.pos + i)),
    GlobalRng.mk rng.stream (rng.pos + count))

/-- Models the first statement of GLM.fit (pyglmnet.py line 531):
np.random.RandomState(self.random_state) constructs a RandomState object
and immediately discards it; neither the global stream nor anything else
is affected by the seed. -/
def randomStateDiscarded (_seed : ℕ) : Unit :=
  ()

/-- The parameter initialization of GLM.fit (pyglmnet.py lines 531 and
551-555): beta0_hat is 1 / (n_features + 1) times one draw of
np.random.normal(0.0, 1.0, 1) from the global stream, and beta_hat is
1 / (n_features + 1) times n_features further draws.  The seed argument is
only passed to the discarded RandomState object. -/
def fitInitParams (randomState : ℕ) (nFeatures : ℕ) (rng : GlobalRng) :
    (ℚ × List ℚ) × GlobalRng :=
  let _ := randomStateDiscarded randomState
  let d0 := normalDraws rng 1
  let d1 := normalDraws d0.2 nFeatures
  ((1 / ((nFeatures : ℚ) + 1) * d0.1.headD 0,
      d1.1.map (fun v => 1 / ((nFeatures : ℚ) + 1) * v)), d1.2)

/-- C5: fit is not deterministic in random_state.  First conjunct: the
initial perturbation is independent of random_state (the seed is discarded),
for every seed pair and stream state.  Second conjunct: two successive fit
calls with the same seed draw from different positions of the advancing
global stream and produce different initial perturbations, shown on the
stream that returns its position index: the first call yields
(0, [1/2]) and the second (1, [3/2]). -/
theorem fitInit_ignores_random_state :
    (∀ (seed1 seed2 nFeatures : ℕ) (rng : GlobalRng),
        fitInitParams seed1 nFeatures rng = fitInitParams seed2 nFeatures rng) ∧
      (fitInitParams 0 1 (GlobalRng.mk (fun i => (i : ℚ)) 0)).1 ≠
        (fitInitParams 0 1 (fitInitParams 0 1 (GlobalRng.mk (fun i => (i : ℚ)) 0)).2).1 := by
  constructor
  · intro seed1 seed2 nFeatures rng
    rfl
  · intro h
    have h0 : ((0 : ℚ), [(1 : ℚ) / 2]) = ((1 : ℚ), [(3 : ℚ) / 2]) := by
      have e1 : (fitInitParams 0 1 (GlobalRng.mk (fun i => (i : ℚ)) 0)).1 =
          ((0 : ℚ), [(1 : ℚ) / 2]) := by
        rw [fitInitParams]
        norm_num [normalDraws, List.range_succ]
      have e2 : (fitInitParams 0 1 (fitInitParams 0 1
          (GlobalRng.mk (fun i => (i : ℚ)) 0)).2).1 = ((1 : ℚ), [(3 : ℚ) / 2]) := by
        rw [fitInitParams, fitInitParams]
        norm_num [normalDraws, List.range_succ]
      rw [e1, e2] at h
      exact h
    have h1 : (0 : ℚ) = 1 := congrArg Prod.fst h0
    norm_num at h1

/-- The ridge branch of _L2penalty (Tau is None):
np.linalg.norm(beta, 2) ** 2, i.e. the sum of squares. -/
def L2penalty_ridge (beta : List ℚ) : ℚ :=
  (beta.map (fun b => b ^ 2)).sum

/-- The lasso branch of _L1penalty (group is None): np.linalg.norm(beta, 1). -/
def L1penalty_lasso (beta : List ℚ) : ℚ :=
  (beta.map (fun b => |b|)).sum

/-- The elastic net penalty _penalty specialized to Tau = None and
group = None: 0.5 * (1 - alpha) * L2 + alpha * L1. -/
def penalty_none (alpha : ℚ) (beta : List ℚ) : ℚ :=
  0.5 * (1 - alpha) * L2penalty_ridge beta + alpha * L1penalty_lasso beta

/-- The log likelihood _logL for distr gaussian:
-0.5 * (1 / n_samples) * sum of (y - (beta0 + X beta)) squared. -/
def logL_gaussian (X : List (List ℚ)) (y : List ℚ) (beta0 : ℚ) (beta : List ℚ) : ℚ :=
  -(1 / 2) * (1 / (X.length : ℚ)) *
    (List.zipWith (fun yi li => (yi - li) ^ 2) y
      (X.map (fun row => beta0 + dotL row beta))).sum

/-- The objective _loss for distr gaussian with Tau = None and group = None:
J = -logL(beta[0], beta[1:]) + reg_lambda * penalty(beta[1:]). -/
def loss_gaussianNone (alpha rl : ℚ) (X : List (List ℚ)) (y beta : List ℚ) : ℚ :=
  -(logL_gaussian X y (beta.headD 0) beta.tail) + rl * penalty_none alpha beta.tail

/-- The inner convergence loop of GLM.fit (pyglmnet.py lines 585-617) for one
lambda, generic in the per-iteration update (the solver step followed by the
proximal step) and in the objective.  The loop counter t starts at 0, the
loss list L accumulates the objective of each post-update iterate, and after
appending, the loop breaks when t > 1 and the relative objective change is
below tol; fuel is the number of remaining iterations out of max_iter. -/
def innerLoop {σ : Type} (update : σ → σ) (lossF : σ → ℚ) (tol : ℚ) :
    ℕ → ℕ → σ → List ℚ → σ × List ℚ
  | 0, _, s, Ls => (s, Ls)
  | fuel + 1, t, s, Ls =>
    if 1 < t ∧ |(lossF (update s) - Ls.getLastD 0) / lossF (update s)| < tol then
      (update s, Ls ++ [lossF (update s)])
    else
      innerLoop update lossF tol fuel (t + 1) (update s) (Ls ++ [lossF (update s)])

/-- The inner loop as entered by GLM.fit: t = 0, empty loss list, max_iter
iterations of fuel. -/
def fitInnerLoop {σ : Type} (update : σ → σ) (lossF : σ → ℚ) (maxIter : ℕ)
    (tol : ℚ) (s0 : σ) : σ × List ℚ :=
  innerLoop update lossF tol maxIter 0 s0 []

/-- The stopping test of the inner loop at iteration index t, on the
sequence J of objective values: t > 1 and abs((J t - J (t-1)) / J t) < tol. -/
def stopAt (J : ℕ → ℚ) (tol : ℚ) (t : ℕ) : Prop :=
  1 < t ∧ |(J t - J (t - 1)) / J t| < tol

lemma getLastD_append_singleton (l : List ℚ) (a d : ℚ) :
    (l ++ [a]).getLastD d = a := by
  induction l generalizing d with
  | nil => rfl
  | cons x xs ih =>
    rw [List.cons_append, List.getLastD_cons, ih]

lemma map_range_getLastD (J : ℕ → ℚ) (t : ℕ) (ht : 1 ≤ t) :
    ((List.range t).map J).getLastD 0 = J (t - 1) := by
  obtain ⟨u, rfl⟩ : ∃ u, t = u + 1 := ⟨t - 1, by omega⟩
  rw [List.range_succ, List.map_append, List.map_singleton,
    getLastD_append_singleton]
  norm_num

lemma innerLoop_spec {σ : Type} (update : σ → σ) (lossF : σ → ℚ) (tol : ℚ)
    (s0 : σ) (J : ℕ → ℚ) (hJ : ∀ n, J n = lossF (update^[n + 1] s0)) :
    ∀ (fuel t : ℕ), (∀ i, i < t → ¬ stopAt J tol i) →
      ∃ N, innerLoop update lossF tol fuel t (update^[t] s0)
            ((List.range t).map J) = (update^[N] s0, (List.range N).map J) ∧
        t ≤ N ∧ N ≤ t + fuel ∧
        (∀ i, i + 1 < N → ¬ stopAt J tol i) ∧
        (N < t + fuel → stopAt J tol (N - 1)) := by
  intro fuel
  induction fuel with
  | zero =>
    intro t hprev
    refine ⟨t, by rw [innerLoop], le_rfl, by omega, ?_, fun h => absurd h (by omega)⟩
    intro i hi
    exact hprev i (by omega)
  | succ fuel ih =>
    intro t hprev
    have hs2 : update (update^[t] s0) = update^[t + 1] s0 :=
      (Function.iterate_succ_apply' update t s0).symm
    have hJt : lossF (update^[t + 1] s0) = J t := (hJ t).symm
    have happ : ((List.range t).map J) ++ [J t] = (List.range (t + 1)).map J := by
      rw [List.range_succ, List.map_append, List.map_singleton]
    rw [innerLoop, hs2, hJt, happ]
    by_cases hc : stopAt J tol t
    · have hcond : 1 < t ∧
          |(J t - ((List.range t).map J).getLastD 0) / J t| < tol := by
        refine ⟨hc.1, ?_⟩
        rw [map_range_getLastD J t hc.1.le]
        exact hc.2
      rw [if_pos hcond]
      refine ⟨t + 1, rfl, by omega, by omega, ?_, fun _ => hc⟩
      intro i hi
      exact hprev i (by omega)
    · have hcond : ¬ (1 < t ∧
          |(J t - ((List.range t).map J).getLastD 0) / J t| < tol) := by
        intro hcc
        apply hc
        refine ⟨hcc.1, ?_⟩
        rw [← map_range_getLastD J t hcc.1.le]
        exact hcc.2
      rw [if_neg hcond]
      obtain ⟨N, hr, htN, hNle, hnostop, hearly⟩ := ih (t + 1) (fun i hi => by
        rcases Nat.lt_succ_iff_lt_or_eq.mp hi with h | h
        · exact hprev i h
        · rw [h]; exact hc)
      exact ⟨N, hr, by omega, by omega, hnostop, fun hlt => hearly (by omega)⟩

/-- C7: for one lambda of the path, the inner loop of GLM.fit runs at most
max_iter iterations of the per-iteration update (solver step plus proximal
step); the recorded objectives are J t = -logL + lambda * penalty at the
post-proximal iterates; the loop stops early after iteration index t exactly
when t > 1 and abs((J t - J (t-1)) / J t) < tol and never stops at the first
two indices (an early exit implies at least 3 iterations ran).  The
hypothesis that the objectives are nonzero keeps the rational model of the
division in the stopping test faithful to the floating point code, where a
zero objective would produce inf or nan and never break. -/
theorem inner_loop_convergence {σ : Type} (update : σ → σ) (betaOf : σ → List ℚ)
    (alpha rl : ℚ) (X : List (List ℚ)) (y : List ℚ) (maxIter : ℕ) (tol : ℚ)
    (s0 : σ)
    (hJnz : ∀ t, t < maxIter →
      loss_gaussianNone alpha rl X y (betaOf (update^[t + 1] s0)) ≠ 0) :
    ∃ N, fitInnerLoop update
          (fun s => loss_gaussianNone alpha rl X y (betaOf s)) maxIter tol s0 =
        (update^[N] s0, (List.range N).map
          (fun t => loss_gaussianNone alpha rl X y (betaOf (update^[t + 1] s0)))) ∧
      N ≤ maxIter ∧
      (∀ t, t + 1 < N →
        ¬ stopAt (fun t => loss_gaussianNone alpha rl X y (betaOf (update^[t + 1] s0))) tol t) ∧
      (N < maxIter →
        stopAt (fun t => loss_gaussianNone alpha rl X y (betaOf (update^[t + 1] s0))) tol (N - 1) ∧
          3 ≤ N) := by
  have hnz := hJnz
  obtain ⟨N, hr, _, hNle, hnostop, hearly⟩ :=
    innerLoop_spec update (fun s => loss_gaussianNone alpha rl X y (betaOf s)) tol s0
      (fun t => loss_gaussianNone alpha rl X y (betaOf (update^[t + 1] s0)))
      (fun n => rfl) maxIter 0 (fun i hi => absurd hi (by omega))
  refine ⟨N, ?_, by omega, hnostop, ?_⟩
  · rw [fitInnerLoop]
    have h0 : (update^[0] s0) = s0 := rfl
    have hl0 : ((List.range 0).map
        (fun t => loss_gaussianNone alpha rl X y (betaOf (update^[t + 1] s0)))) =
          ([] : List ℚ) := rfl
    rw [← h0, ← hl0]
    exact hr
  · intro hlt
    have hstop := hearly (by omega)
    refine ⟨hstop, ?_⟩
    have h2 : 1 < N - 1 := hstop.1
    omega

/-- Witness for C7: with the identity update, a constant objective 1/2 and
tol = 1, the loop stops after 3 iterations out of max_iter = 5. -/
theorem inner_loop_convergence_witness :
    ∃ N, fitInnerLoop (fun b : List ℚ => b)
          (fun s => loss_gaussianNone 1 1 [[1]] [1] ((fun b : List ℚ => b) s)) 5 1 [0, 0] =
        ((fun b : List ℚ => b)^[N] [0, 0], (List.range N).map
          (fun t => loss_gaussianNone 1 1 [[1]] [1]
            ((fun b : List ℚ => b)^[t + 1] [0, 0]))) ∧
      N ≤ 5 ∧
      (∀ t, t + 1 < N →
        ¬ stopAt (fun t => loss_gaussianNone 1 1 [[1]] [1]
          ((fun b : List ℚ => b)^[t + 1] [0, 0])) 1 t) ∧
      (N < 5 →
        stopAt (fun t => loss_gaussianNone 1 1 [[1]] [1]
          ((fun b : List ℚ => b)^[t + 1] [0, 0])) 1 (N - 1) ∧
          3 ≤ N) := by
  refine inner_loop_convergence (fun b : List ℚ => b) (fun b => b) 1 1 [[1]] [1] 5 1 [0, 0] ?_
  intro t ht
  have hit : (fun b : List ℚ => b)^[t + 1] [0, 0] = [0, 0] := by
    rw [show (fun b : List ℚ => b) = id from rfl, Function.iterate_id, id]
  rw [hit]
  norm_num [loss_gaussianNone, logL_gaussian, penalty_none, L2penalty_ridge,
    L1penalty_lasso, dotL]

/-- _gradhess_logloss_1d for distr gaussian (pyglmnet.py lines 439-441 and
448): gk = sum((z - y) * xk) / n_samples and hk = sum(xk * xk) / n_samples. -/
def gradhess_gaussian (xk y z : List ℚ) : ℚ × ℚ :=
  (1 / (xk.length : ℚ) *
      (List.zipWith (fun a b => a * b) (List.zipWith (fun zi yi => zi - yi) z y) xk).sum,
    1 / (xk.length : ℚ) * (List.zipWith (fun a b => a * b) xk xk).sum)

/-- The body of the coordinate loop of GLM._cdfast (pyglmnet.py lines
487-511) with Tau = None, hoisted out of the fold: coordinates whose active
set entry is zero are skipped; the intercept column is all ones and the
feature column k uses X[:, k - 1]; for k > 0 the regularization contributes
reg_scale * beta[k] to the gradient and reg_scale * 1.0 to the Hessian with
reg_scale = rl * (1 - alpha); the Newton update 1 / hk * gk changes beta[k]
and incrementally updates the cached z. -/
def cdfastStep (gradhess : List ℚ → List ℚ → List ℚ → ℚ × ℚ) (alpha rl : ℚ)
    (X : List (List ℚ)) (y : List ℚ) (activeSet : List ℚ)
    (bz : List ℚ × List ℚ) (k : ℕ) : List ℚ × List ℚ :=
  if activeSet.getD k 0 ≠ 0 then
    let xk := if 0 < k then X.map (fun row => row.getD (k - 1) 0)
      else List.replicate X.length 1
    let gh := gradhess xk y bz.2
    let gk := gh.1 + (if 0 < k then rl * (1 - alpha) * bz.1.getD k 0 else 0)
    let hk := gh.2 + (if 0 < k then rl * (1 - alpha) * 1 else 0)
    let update := 1 / hk * gk
    (bz.1.set k (bz.1.getD k 0 - update),
      List.zipWith (fun zi xi => zi - update * xi) bz.2 xk)
  else bz

/-- One cycle of Newton updates over all coordinates k = 0 .. n_features,
GLM._cdfast (pyglmnet.py lines 450-512), generic in the per-distribution
1-d gradient and Hessian. -/
def cdfast (gradhess : List ℚ → List ℚ → List ℚ → ℚ × ℚ) (alpha rl : ℚ)
    (X : List (List ℚ)) (y z0 : List ℚ) (activeSet beta0 : List ℚ) :
    List ℚ × List ℚ :=
  (List.range ((X.headD []).length + 1)).foldl
    (cdfastStep gradhess alpha rl X y activeSet) (beta0, z0)

/-- The post-sweep active set update of GLM.fit (pyglmnet.py line 603):
ActiveSet[np.where(beta[1:] == 0)[0] + 1] = 0 clears exactly the entries at
indices j >= 1 whose coefficient beta[j] is exactly zero, leaving every
other entry unchanged; j is the running index of the recursion. -/
def pruneActive (beta : List ℚ) : ℕ → List ℚ → List ℚ
  | _, [] => []
  | j, a :: rest =>
    (if 1 ≤ j ∧ j < beta.length ∧ beta.getD j 0 = 0 then 0 else a) ::
      pruneActive beta (j + 1) rest

/-- The mutable working state of one lambda of the cdfast solver in
GLM.fit: the coefficient vector beta, the cached linear predictor z and
the active set. -/
structure CdState where
  beta : List ℚ
  z : List ℚ
  active : List ℚ

/-- One iteration of the inner loop of GLM.fit with solver cdfast
(pyglmnet.py lines 595-603): one sweep of _cdfast, then the proximal
operator on beta[1:] with threshold rl * alpha, then the active set
pruning. -/
def cdIter (gradhess : List ℚ → List ℚ → List ℚ → ℚ × ℚ) (alpha rl : ℚ)
    (X : List (List ℚ)) (y : List ℚ) (s : CdState) : CdState :=
  let bz := cdfast gradhess alpha rl X y s.z s.active s.beta
  let beta2 := match bz.1 with
    | [] => []
    | b0 :: rest => b0 :: prox_ungrouped rest (rl * alpha)
  CdState.mk beta2 bz.2 (pruneActive beta2 0 s.active)

/-- The per-lambda initialization of the cdfast solver state in GLM.fit
(pyglmnet.py lines 575-583): beta from the warm start, the cached
z = beta[0] + X beta[1:], and the all-ones active set of length
n_features + 1. -/
def cdInit (X : List (List ℚ)) (betaInit : List ℚ) : CdState :=
  CdState.mk betaInit
    (X.map (fun row => betaInit.headD 0 + dotL row betaInit.tail))
    (List.replicate ((X.headD []).length + 1) 1)

/-- The inner loop of GLM.fit for one lambda with solver cdfast and the
gaussian objective, entered with the freshly reset all-active set. -/
def fitCdLambda (gradhess : List ℚ → List ℚ → List ℚ → ℚ × ℚ) (alpha rl : ℚ)
    (maxIter : ℕ) (tol : ℚ) (X : List (List ℚ)) (y betaInit : List ℚ) :
    CdState × List ℚ :=
  fitInnerLoop (cdIter gradhess alpha rl X y)
    (fun s => loss_gaussianNone alpha rl X y s.beta) maxIter tol
    (cdInit X betaInit)

lemma pruneActive_getD_of_zero (beta active : List ℚ) :
    ∀ (j k : ℕ), active.getD k 0 = 0 → (pruneActive beta j active).getD k 0 = 0 := by
  induction active with
  | nil =>
    intro j k h
    simp [pruneActive]
  | cons a rest ih =>
    intro j k h
    cases k with
    | zero =>
      rw [List.getD_cons_zero] at h
      rw [pruneActive, List.getD_cons_zero, h]
      split <;> rfl
    | succ k =>
      rw [List.getD_cons_succ] at h
      rw [pruneActive, List.getD_cons_succ]
      exact ih (j + 1) k h

lemma pruneActive_getD_of_beta_zero (beta active : List ℚ) :
    ∀ (j k : ℕ), k < active.length → 1 ≤ j + k → j + k < beta.length →
      beta.getD (j + k) 0 = 0 → (pruneActive beta j active).getD k 0 = 0 := by
  induction active with
  | nil =>
    intro j k hk
    simp at hk
  | cons a rest ih =>
    intro j k hk h1 h2 h3
    cases k with
    | zero =>
      rw [pruneActive, List.getD_cons_zero, if_pos]
      refine ⟨by omega, by omega, ?_⟩
      rw [show j = j + 0 from by omega]
      exact h3
    | succ k =>
      rw [pruneActive, List.getD_cons_succ]
      refine ih (j + 1) k (by simpa using hk) (by omega) (by omega) ?_
      rw [show j + 1 + k = j + (k + 1) from by omega]
      exact h3

lemma pruneActive_getD_head (beta active : List ℚ) :
    (pruneActive beta 0 active).getD 0 0 = active.getD 0 0 := by
  cases active with
  | nil => rfl
  | cons a rest =>
    rw [pruneActive, List.getD_cons_zero, List.getD_cons_zero, if_neg]
    intro h
    exact absurd h.1 (by omega)

lemma cdIter_active (gradhess : List ℚ → List ℚ → List ℚ → ℚ × ℚ)
    (alpha rl : ℚ) (X : List (List ℚ)) (y : List ℚ) (s : CdState) :
    (cdIter gradhess alpha rl X y s).active =
      pruneActive (cdIter gradhess alpha rl X y s).beta 0 s.active := by
  rw [cdIter]

/-- C9: for the cdfast solver, the active set starts all-active at each
lambda (first conjunct, about the per-lambda initial state used by
fitCdLambda); one inner loop iteration never reactivates a cleared entry
(second conjunct, so the set shrinks monotonically along the loop); and
after the proximal step of each sweep, every non-intercept index whose
coefficient is exactly zero is cleared (third conjunct). -/
theorem cdfast_active_set (gradhess : List ℚ → List ℚ → List ℚ → ℚ × ℚ)
    (alpha rl : ℚ) (X : List (List ℚ)) (y : List ℚ) :
    (∀ betaInit : List ℚ,
        (cdInit X betaInit).active = List.replicate ((X.headD []).length + 1) 1) ∧
      (∀ (s : CdState) (k : ℕ), s.active.getD k 0 = 0 →
        (cdIter gradhess alpha rl X y s).active.getD k 0 = 0) ∧
      (∀ (s : CdState) (k : ℕ), 1 ≤ k → k < s.active.length →
        k < (cdIter gradhess alpha rl X y s).beta.length →
        (cdIter gradhess alpha rl X y s).beta.getD k 0 = 0 →
        (cdIter gradhess alpha rl X y s).active.getD k 0 = 0) := by
  refine ⟨fun betaInit => rfl, ?_, ?_⟩
  · intro s k h
    rw [cdIter_active]
    exact pruneActive_getD_of_zero _ s.active 0 k h
  · intro s k h1 h2 h3 h4
    rw [cdIter_active]
    exact pruneActive_getD_of_beta_zero _ s.active 0 k h2 (by omega) (by omega)
      (by simpa using h4)

/-- Witness for C9 at a concrete state: with X = [[1]], y = [0], alpha = 0,
rl = 0 and the state beta = [0, 0], z = [0], active = [1, 1], the sweep and
proximal step keep beta[1] = 0 and the pruning clears active[1]. -/
theorem cdfast_active_set_witness :
    (cdIter gradhess_gaussian 0 0 [[1]] [0]
        (CdState.mk [0, 0] [0] [1, 1])).active.getD 1 0 = 0 := by
  have hbeta : (cdIter gradhess_gaussian 0 0 [[1]] [0]
      (CdState.mk [0, 0] [0] [1, 1])).beta = [0, 0] := by
    norm_num [cdIter, cdfast, cdfastStep, gradhess_gaussian, List.range_succ,
      prox_ungrouped, softThreshold, signQ]
  refine (cdfast_active_set gradhess_gaussian 0 0 [[1]] [0]).2.2
    (CdState.mk [0, 0] [0] [1, 1]) 1 (by omega) (by norm_num) ?_ ?_
  · rw [hbeta]
    norm_num
  · rw [hbeta]
    rfl

lemma getD_set_ne_head (l : List ℚ) (k : ℕ) (hk : k ≠ 0) (v : ℚ) :
    (l.set k v).getD 0 0 = l.getD 0 0 := by
  cases l with
  | nil => rfl
  | cons a rest =>
    cases k with
    | zero => exact absurd rfl hk
    | succ k => rfl

lemma getD_set_zero_head (l : List ℚ) (hl : l ≠ []) (v : ℚ) :
    (l.set 0 v).getD 0 0 = v := by
  cases l with
  | nil => exact absurd rfl hl
  | cons a rest => rfl

lemma getElem?_set_zero_head (l : List ℚ) (hl : l ≠ []) (v : ℚ) :
    (l.set 0 v)[0]?.getD 0 = v := by
  cases l with
  | nil => exact absurd rfl hl
  | cons a rest => simp

lemma cdfastStep_preserves_head (gradhess : List ℚ → List ℚ → List ℚ → ℚ × ℚ)
    (alpha rl : ℚ) (X : List (List ℚ)) (y activeSet : List ℚ)
    (bz : List ℚ × List ℚ) (k : ℕ) (hk : k ≠ 0) :
    (cdfastStep gradhess alpha rl X y activeSet bz k).1.getD 0 0 =
      bz.1.getD 0 0 := by
  rw [cdfastStep]
  split
  · exact getD_set_ne_head bz.1 k hk _
  · rfl

lemma foldl_cdfastStep_head (gradhess : List ℚ → List ℚ → List ℚ → ℚ × ℚ)
    (alpha rl : ℚ) (X : List (List ℚ)) (y activeSet : List ℚ) :
    ∀ (ks : List ℕ), (∀ k ∈ ks, k ≠ 0) → ∀ bz : List ℚ × List ℚ,
      ((ks.foldl (cdfastStep gradhess alpha rl X y activeSet) bz).1.getD 0 0) =
        bz.1.getD 0 0 := by
  intro ks
  induction ks with
  | nil =>
    intro _ bz
    rfl
  | cons k rest ih =>
    intro h bz
    rw [List.foldl_cons, ih (fun k2 hk2 => h k2 (List.mem_cons_of_mem _ hk2)),
      cdfastStep_preserves_head gradhess alpha rl X y activeSet bz k
        (h k (List.mem_cons_self _ _))]

/-- C10: the intercept entry of the active set is never cleared and the
intercept receives a Newton update in every sweep.  First conjunct: along
every iterate of the cdfast inner loop started from the per-lambda initial
state, active[0] stays 1 (the pruning touches only indices >= 1).  Second
conjunct: whenever active[0] is nonzero, one sweep of _cdfast replaces
beta[0] by beta[0] - (1 / hk) * gk with (gk, hk) the 1-d gradient and
Hessian at the all-ones intercept column and the entering z, with no
regularization term. -/
theorem cdfast_intercept_always_updated
    (gradhess : List ℚ → List ℚ → List ℚ → ℚ × ℚ) (alpha rl : ℚ)
    (X : List (List ℚ)) (y : List ℚ) :
    (∀ (betaInit : List ℚ) (n : ℕ),
        ((cdIter gradhess alpha rl X y)^[n] (cdInit X betaInit)).active.getD 0 0 = 1) ∧
      (∀ (z activeSet beta : List ℚ), activeSet.getD 0 0 ≠ 0 → beta ≠ [] →
        (cdfast gradhess alpha rl X y z activeSet beta).1.getD 0 0 =
          beta.getD 0 0 - 1 / (gradhess (List.replicate X.length 1) y z).2 *
            (gradhess (List.replicate X.length 1) y z).1) := by
  constructor
  · intro betaInit n
    induction n with
    | zero =>
      rw [Function.iterate_zero_apply, cdInit, List.replicate_succ, List.getD_cons_zero]
    | succ n ih =>
      rw [Function.iterate_succ_apply', cdIter_active, pruneActive_getD_head]
      exact ih
  · intro z activeSet beta hact hbeta
    rw [cdfast, List.range_succ_eq_map, List.foldl_cons,
      foldl_cdfastStep_head gradhess alpha rl X y activeSet _
        (fun k hk => by
          obtain ⟨j, _, rfl⟩ := List.mem_map.mp hk
          exact Nat.succ_ne_zero j)]
    rw [cdfastStep, if_pos hact]
    norm_num
    rw [getElem?_set_zero_head beta hbeta]

/-- Witness for C10 at a concrete state: with X = [[1]], y = [0], z = [2],
active = [1, 1] and beta = [2, 5], the sweep sets the intercept to
2 - (1 / hk) * gk with (gk, hk) = gradhess_gaussian [1] [0] [2]. -/
theorem cdfast_intercept_always_updated_witness :
    (cdfast gradhess_gaussian 0 0 [[1]] [0] [2] [1, 1] [2, 5]).1.getD 0 0 =
      ([2, 5] : List ℚ).getD 0 0 -
        1 / (gradhess_gaussian (List.replicate ([[1]] : List (List ℚ)).length 1) [0] [2]).2 *
          (gradhess_gaussian (List.replicate ([[1]] : List (List ℚ)).length 1) [0] [2]).1 :=
  (cdfast_intercept_always_updated gradhess_gaussian 0 0 [[1]] [0]).2
    [2] [1, 1] [2, 5] (by norm_num) (by simp)

/-- np.eye(p): the p by p rational identity matrix, the default Tau of
_grad_L2loss. -/
def eyeM (p : ℕ) : List (List ℚ) :=
  (List.range p).map (fun i => (List.range p).map (fun j => if i = j then (1 : ℚ) else 0))

/-- np.dot of a matrix with a vector, with the numpy conformability check:
every row must have the length of the vector, else a shape error (none). -/
def npDotMV (A : List (List ℚ)) (v : List ℚ) : Option (List ℚ) :=
  if A.all (fun row => row.length == v.length) then
    some (A.map (fun row => dotL row v))
  else none

/-- np.dot of a vector with a matrix (v.T A): the vector length must equal
the number of rows of A, else a shape error (none); the result has one
entry per column. -/
def npDotVM (v : List ℚ) (A : List (List ℚ)) : Option (List ℚ) :=
  if A.length == v.length then
    some ((List.transpose A).map (fun col => dotL v col))
  else none

/-- np.dot of two matrices as used for Tau.T Tau, which is always
conformable: rows of A against columns of B. -/
def matMulM (A B : List (List ℚ)) : List (List ℚ) :=
  A.map (fun row => (List.transpose B).map (fun col => dotL row col))

/-- The gradient _grad_L2loss for distr gaussian (pyglmnet.py lines
113-169): g[0] = sum(z - y) / n and
g[1:] = X.T (z - y) / n + rl * (1 - alpha) * InvCov beta[1:], with
InvCov = Tau.T Tau and Tau defaulting to np.eye(n_features); none models a
numpy shape error in one of the products or the elementwise sum. -/
def grad_L2loss_gaussian (alpha rl : ℚ) (Tau : Option (List (List ℚ)))
    (X : List (List ℚ)) (y beta : List ℚ) : Option (List ℚ) :=
  let TauM := match Tau with
    | none => eyeM beta.tail.length
    | some T => T
  let InvCov := matMulM (List.transpose TauM) TauM
  match npDotMV X beta.tail with
  | none => none
  | some Xb =>
    let z := Xb.map (fun v => beta.headD 0 + v)
    if z.length == y.length then
      let zy := List.zipWith (fun a b => a - b) z y
      match npDotVM zy X with
      | none => none
      | some vX =>
        match npDotMV InvCov beta.tail with
        | none => none
        | some icb =>
          if vX.length == icb.length then
            some ((1 / (X.length : ℚ) * zy.sum) ::
              List.zipWith (fun a b => 1 / (X.length : ℚ) * a + rl * (1 - alpha) * b)
                vX icb)
          else none
    else none

/-- _L2penalty (pyglmnet.py lines 63-76): the ridge branch when Tau is
None, otherwise the Tikhonov value after the shape check
Tau.shape[0] != beta.shape[0] or Tau.shape[1] != beta.shape[0], which
raises the ValueError modelled as the error value. -/
def L2penalty_opt (beta : List ℚ) (Tau : Option (List (List ℚ))) : Except String ℚ :=
  match Tau with
  | none => Except.ok (L2penalty_ridge beta)
  | some T =>
    if T.length ≠ beta.length ∨ (T.headD []).length ≠ beta.length then
      Except.error "Tau should be (n_features x n_features)"
    else
      Except.ok (((T.map (fun row => dotL row beta)).map (fun v => v ^ 2)).sum)

/-- _penalty with group = None (pyglmnet.py lines 55-60); the Tau shape
error of _L2penalty propagates. -/
def penalty_opt (alpha : ℚ) (beta : List ℚ) (Tau : Option (List (List ℚ))) :
    Except String ℚ :=
  match L2penalty_opt beta Tau with
  | Except.error e => Except.error e
  | Except.ok l2 => Except.ok (0.5 * (1 - alpha) * l2 + alpha * L1penalty_lasso beta)

/-- _loss for distr gaussian and group = None (pyglmnet.py lines 97-102):
J = -logL(beta[0], beta[1:]) + rl * penalty(beta[1:]). -/
def loss_gaussian_opt (alpha : ℚ) (Tau : Option (List (List ℚ))) (rl : ℚ)
    (X : List (List ℚ)) (y beta : List ℚ) : Except String ℚ :=
  match penalty_opt alpha beta.tail Tau with
  | Except.error e => Except.error e
  | Except.ok P => Except.ok (-(logL_gaussian X y (beta.headD 0) beta.tail) + rl * P)

/-- The batch-gradient iteration body of GLM.fit (pyglmnet.py lines 588-594
and 599): the step beta - learning_rate * grad followed by the proximal
operator on beta[1:] with threshold rl * alpha. -/
def batchUpdate (alpha rl lr : ℚ) (g beta : List ℚ) : List ℚ :=
  (List.zipWith (fun b gi => b - lr * gi) beta g).headD 0 ::
    prox_ungrouped (List.zipWith (fun b gi => b - lr * gi) beta g).tail (rl * alpha)

/-- Observable events in the order the batch-gradient inner loop of GLM.fit
produces them: a full gradient evaluation, the gradient plus proximal
update, an objective evaluation, a numpy shape error inside the gradient,
or the Tau shape ValueError of _L2penalty raised from inside _loss. -/
inductive FitEvent
  | gradEval
  | proxStep
  | lossEval
  | errGradShape
  | errTauShape
  deriving DecidableEq

/-- The inner loop of GLM.fit for the batch-gradient solver and the
gaussian distribution (pyglmnet.py lines 585-617), recording the event
order.  There is no Tau validation before the loop (the pre-loop checks of
fit cover only group and the type of X): each iteration first evaluates
the full gradient, then applies the gradient and proximal step, then
evaluates the objective, which is where the Tau shape check of _L2penalty
runs; an error ends the run.  Otherwise the loop continues with the same
stopping test as innerLoop. -/
def fitBatchGaussianGo (alpha rl lr tol : ℚ) (Tau : Option (List (List ℚ)))
    (X : List (List ℚ)) (y : List ℚ) :
    ℕ → ℕ → List ℚ → List ℚ → List FitEvent
  | 0, _, _, _ => []
  | fuel + 1, t, beta, Ls =>
    match grad_L2loss_gaussian alpha rl Tau X y beta with
    | none => [FitEvent.errGradShape]
    | some g =>
      match loss_gaussian_opt alpha Tau rl X y (batchUpdate alpha rl lr g beta) with
      | Except.error _ => [FitEvent.gradEval, FitEvent.proxStep, FitEvent.errTauShape]
      | Except.ok J =>
        if 1 < t ∧ |(J - Ls.getLastD 0) / J| < tol then
          [FitEvent.gradEval, FitEvent.proxStep, FitEvent.lossEval]
        else
          FitEvent.gradEval :: FitEvent.proxStep :: FitEvent.lossEval ::
            fitBatchGaussianGo alpha rl lr tol Tau X y fuel (t + 1)
              (batchUpdate alpha rl lr g beta) (Ls ++ [J])

/-- The event trace of the batch-gradient fit loop for one lambda, entered
as GLM.fit enters it: t = 0, empty loss list, max_iter as fuel. -/
def fitBatchGaussianEvents (alpha rl lr tol : ℚ) (maxIter : ℕ)
    (Tau : Option (List (List ℚ))) (X : List (List ℚ)) (y betaInit : List ℚ) :
    List FitEvent :=
  fitBatchGaussianGo alpha rl lr tol Tau X y maxIter 0 betaInit []

/-- C3 counterexample: with the malformed Tau of shape (3, 2) for
n_features = 2, the first iteration fully evaluates the gradient (the
products are all conformable) and applies the proximal step before the Tau
shape ValueError surfaces at the first objective evaluation, so the trace
begins with a gradient evaluation rather than with the error: no error is
raised before the solver iteration begins. -/
theorem tau_check_not_before_iteration :
    fitBatchGaussianEvents (1 / 2) 1 (1 / 10) (1 / 100) 5
        (some [[1, 0], [0, 1], [0, 0]]) [[1, 2]] [0] [0, 0, 0] =
      [FitEvent.gradEval, FitEvent.proxStep, FitEvent.errTauShape] := by
  decide

/-- C3 amended: with a Tau whose shape check fails, the ValueError of
_L2penalty is raised at the first objective evaluation of the first
iteration, after one full gradient evaluation and one proximal step have
already executed (first conjunct); and the shape check itself fails inside
the loss exactly when Tau is not (n_features x n_features) (second
conjunct). -/
theorem tau_shape_error_after_first_update (alpha rl lr tol : ℚ)
    (maxIter : ℕ) (Tau : Option (List (List ℚ))) (X : List (List ℚ))
    (y beta : List ℚ) (e : String) (hmax : 1 ≤ maxIter)
    (hg : (grad_L2loss_gaussian alpha rl Tau X y beta).isSome = true)
    (he : loss_gaussian_opt alpha Tau rl X y
        (batchUpdate alpha rl lr
          ((grad_L2loss_gaussian alpha rl Tau X y beta).getD []) beta) =
      Except.error e) :
    fitBatchGaussianEvents alpha rl lr tol maxIter Tau X y beta =
        [FitEvent.gradEval, FitEvent.proxStep, FitEvent.errTauShape] ∧
      (∀ (beta2 : List ℚ) (T : List (List ℚ)),
        (T.length ≠ beta2.tail.length ∨ (T.headD []).length ≠ beta2.tail.length) →
        loss_gaussian_opt alpha (some T) rl X y beta2 =
          Except.error "Tau should be (n_features x n_features)") := by
  constructor
  · obtain ⟨g, hgeq⟩ := Option.isSome_iff_exists.mp hg
    rw [hgeq] at he
    simp only [Option.getD_some] at he
    obtain ⟨fuel, rfl⟩ : ∃ f, maxIter = f + 1 := ⟨maxIter - 1, by omega⟩
    rw [fitBatchGaussianEvents]
    simp only [fitBatchGaussianGo, hgeq, he]
  · intro beta2 T hshape
    rw [loss_gaussian_opt, penalty_opt, L2penalty_opt, if_pos hshape]

/-- Witness for the amended C3 theorem at a Tau of shape (1, 2) with
n_features = 2: the gradient evaluation succeeds and the first objective
evaluation raises the Tau shape error. -/
theorem tau_shape_error_after_first_update_witness :
    fitBatchGaussianEvents (1 / 2) 1 (1 / 10) (1 / 100) 3
        (some [[1, 0]]) [[1, 2]] [0] [0, 0, 0] =
        [FitEvent.gradEval, FitEvent.proxStep, FitEvent.errTauShape] ∧
      (∀ (beta2 : List ℚ) (T : List (List ℚ)),
        (T.length ≠ beta2.tail.length ∨ (T.headD []).length ≠ beta2.tail.length) →
        loss_gaussian_opt (1 / 2) (some T) 1 [[1, 2]] [0] beta2 =
          Except.error "Tau should be (n_features x n_features)") :=
  tau_shape_error_after_first_update (1 / 2) 1 (1 / 10) (1 / 100) 3
    (some [[1, 0]]) [[1, 2]] [0] [0, 0, 0]
    "Tau should be (n_features x n_features)" (by omega) (by decide) (by rfl)

end Pyglmnet
